import Mathlib

/-!
Verification development for the generic-forecast model-lifecycle service.

The Lean definitions below are a shallow embedding of the Python sources:

* `src/infrastructure/persistence/model_repository.py`
  (`_get_next_version`, `save_model`, `load_production_model_info`,
  `update_production_model_info`);
* `src/use_cases/train_model_use_case.py` (`TrainModelUseCase.execute`);
* `src/infrastructure/forecasting_models/prophet_model.py`
  (`ProphetModel.predict`);
* `src/infrastructure/forecasting_models/anomaly_detection_model.py`
  (`AnomalyDetectionModel._create_features`, `train`, `predict`).

Modelling conventions:

* Python floats (the rmse/mae metric values) are modelled as rationals `ℚ`;
  the code only compares them with `<`.
* Timestamps are modelled as `Nat` (seconds since an epoch); the pandas daily
  frequency is the constant 86400.
* The file system visible to the repository module is a `World`: the single
  registry JSON file (`models/production_model.json`), the list of dumped
  artifact paths, and a flag `writeFails` modelling an environment in which
  re-writing the registry file raises an OS exception.
* A Python `dict` loaded from the registry JSON is an association list in
  insertion order; `production_info[app_id] = ...` replaces in place or
  appends at the end, exactly like a dict update.
* Fallible Python code returns `Except`; a raised-and-not-caught exception is
  an `Except.error`.
-/

namespace GenericForecast

/-! ## Decimal string rendering and parsing

The repository turns version numbers into strings with Python f-strings
(`f"v{n}"`) and back with `int(s)` after `s.replace("v", "")`.  `natDecimal`
is the decimal rendering of a natural number and `strToNatOpt` the
successful/failing behaviour of `int` on the tokens this system produces
(`some` exactly on non-empty all-digit strings). -/

/-- Little-endian decimal digits of `n`, with explicit fuel so that the
definition reduces by `rfl` (fuel `n` is always enough). -/
def decDigitsRev (fuel n : Nat) : List Nat :=
  match fuel with
  | 0 => []
  | fuel + 1 => if n = 0 then [] else (n % 10) :: decDigitsRev fuel (n / 10)

/-- Little-endian decimal digits of `n` (the digit list of 0 is `[0]`). -/
def decDigits (n : Nat) : List Nat :=
  if n = 0 then [0] else decDigitsRev n n

/-- Decimal rendering of a natural number, as produced by a Python f-string. -/
def natDecimal (n : Nat) : String :=
  ((decDigits n).reverse.map (fun d => Char.ofNat (48 + d))).asString

/-- Numeric value of a decimal digit character. -/
def digitVal (c : Char) : Nat := c.toNat - 48

/-- Behaviour of Python `int(s)` on the version tokens of this system:
succeeds exactly on non-empty strings of decimal digits, returning their
value; otherwise `int` raises `ValueError`, modelled as `none`. -/
def strToNatOpt (s : String) : Option Nat :=
  if s.toList ≠ [] ∧ ∀ c ∈ s.toList, c.isDigit then
    some (s.toList.foldl (fun acc c => 10 * acc + digitVal c) 0)
  else none

/-- Embedding of `s.replace("v", "")`: removes every occurrence of the
one-character pattern. -/
def stripV (s : String) : String := (s.toList.filter (fun c => c ≠ 'v')).asString

/-- Version token written by the repository for version number `n`
(`f"v{next_version_num}"`). -/
def vstr (n : Nat) : String := "v" ++ natDecimal n

/-- Embedding of the version parse in `_get_next_version`:
`int(app_info["version"].replace("v", ""))`, with the `ValueError` handler
resetting the count to 0. -/
def parseVersionNum (s : String) : Nat := (strToNatOpt (stripV s)).getD 0

/-- Whether a version token is numeric in the sense of the code's own parser
(Python `int` succeeds on it after stripping the `v`s). -/
def isNumericVersion (s : String) : Bool := (strToNatOpt (stripV s)).isSome

/-! ## Data model: metrics, registry entries, the repository world -/

/-- Evaluation metrics returned by `ProphetModel.evaluate` and recorded in the
registry (`{"rmse": ..., "mae": ...}`). -/
structure Metrics where
  rmse : ℚ
  mae : ℚ
  deriving Repr, DecidableEq

/-- One value of the production registry JSON object: the record stored under
an `app_id` key by `update_production_model_info`. -/
structure ProductionEntry where
  version : String
  path : String
  metrics : Metrics
  timestamp_promoted : Nat
  deriving Repr, DecidableEq

/-- State of the backing file `models/production_model.json`: missing,
present but undecodable JSON, or a decodable JSON object. -/
inductive RegistryFile where
  | absent : RegistryFile
  | corrupt : RegistryFile
  | valid : List (String × ProductionEntry) → RegistryFile
  deriving Repr, DecidableEq

/-- The file-system state visible to `model_repository.py`: the registry
file, the list of dumped `.joblib` artifact paths, and whether an attempt to
write the registry file raises an OS-level exception. -/
structure World where
  registry : RegistryFile
  store : List String
  writeFails : Bool
  deriving Repr, DecidableEq

/-- Python dict lookup `d.get(k)` on an association list. -/
def dictGet (l : List (String × ProductionEntry)) (k : String) : Option ProductionEntry :=
  match l with
  | [] => none
  | (k₁, v) :: t => if k₁ = k then some v else dictGet t k

/-- Python dict update `d[k] = v` on an association list: replaces the
binding in place if the key is present, otherwise appends it. -/
def dictSet (l : List (String × ProductionEntry)) (k : String) (v : ProductionEntry) :
    List (String × ProductionEntry) :=
  match l with
  | [] => [(k, v)]
  | (k₁, v₁) :: t => if k₁ = k then (k, v) :: t else (k₁, v₁) :: dictSet t k v

/-! ## Embedding of `model_repository.py` -/

/-- Path of a dumped model artifact:
`os.path.join(MODELS_DIR, f"{app_id}_model_{version}.joblib")`. -/
def modelFilePath (app_id version : String) : String :=
  "models/" ++ app_id ++ "_model_" ++ version ++ ".joblib"

/-- Embedding of `_get_next_version`: reads the registry file (a missing or
undecodable file leaves the count at 0), parses the numeric part of the
current entry's version token (a parse failure resets the count to 0), and
renders `v{current + 1}`. -/
def getNextVersion (reg : RegistryFile) (app_id : String) : String :=
  let current : Nat :=
    match reg with
    | .absent => 0
    | .corrupt => 0
    | .valid entries =>
      match dictGet entries app_id with
      | none => 0
      | some info => parseVersionNum info.version
  vstr (current + 1)

/-- Embedding of `load_production_model_info`: `None` when the file is
missing, `None` (logged, not raised) when the JSON is undecodable, else the
dict entry for `app_id`. -/
def load_production_model_info (w : World) (app_id : String) : Option ProductionEntry :=
  match w.registry with
  | .absent => none
  | .corrupt => none
  | .valid entries => dictGet entries app_id

/-- The read phase of `update_production_model_info`: a missing file yields
an empty dict, a corrupted file is reset to an empty dict. -/
def readRegistryForUpdate (reg : RegistryFile) : List (String × ProductionEntry) :=
  match reg with
  | .absent => []
  | .corrupt => []
  | .valid entries => entries

/-- Embedding of `update_production_model_info`: read-modify-write of the
registry file.  The final `json.dump` sits in a `try/except` that logs and
returns on any exception, so when the write raises (`writeFails`) the
function still returns normally and the on-disk registry is unchanged. -/
def update_production_model_info (w : World) (app_id version path : String)
    (metrics : Metrics) (now : Nat) : World :=
  let production_info := readRegistryForUpdate w.registry
  let production_info := dictSet production_info app_id
    { version := version, path := path, metrics := metrics, timestamp_promoted := now }
  if w.writeFails then w
  else { w with registry := .valid production_info }

/-- The state reached inside `save_model` after its call to
`update_production_model_info` and before `joblib.dump`: the registry has
been rewritten, the artifact file does not exist yet.  (In the source the
registry update is on line 53 and the dump on line 55.) -/
def save_model_mid (w : World) (app_id : String) (metrics : Metrics) (now : Nat) : World :=
  update_production_model_info w app_id (getNextVersion w.registry app_id)
    (modelFilePath app_id (getNextVersion w.registry app_id)) metrics now

/-- Embedding of `save_model`: computes the next version and path, updates
the production registry, then dumps the artifact, and returns
`(version, file_path)` together with the final world. -/
def save_model (w : World) (app_id : String) (metrics : Metrics) (now : Nat) :
    (String × String) × World :=
  let version := getNextVersion w.registry app_id
  let file_path := modelFilePath app_id version
  let w₁ := save_model_mid w app_id metrics now
  let w₂ := { w₁ with store := file_path :: w₁.store }
  ((version, file_path), w₂)

/-! ## Embedding of `TrainModelUseCase.execute`

The use case parses the tabular rows, trains a fresh Prophet model and
evaluates it; the black-box training and evaluation are abstracted into the
`new_model_metrics` argument, and the registry/store interaction — the part
the claims are about — is embedded verbatim.  `now` is the wall-clock
timestamp used by the registry update inside `save_model`, `now₂` the one
used by the use case's own registry update. -/

/-- Response object returned by the train use case (`TrainResponse`). -/
structure TrainResponse where
  message : String
  model_id : String
  model_version : Option String
  metrics : Metrics
  deriving Repr, DecidableEq

/-- Final world paired with the use case's response. -/
structure ExecResult where
  world : World
  response : TrainResponse
  deriving Repr, DecidableEq

/-- Model id derived by the use case: `f"{app_id}_{target_column}"`. -/
def mkModelId (app_id target_column : String) : String := app_id ++ "_" ++ target_column

/-- The promotion arm of `TrainModelUseCase.execute`: `save_model`, then a
second `update_production_model_info`, then the PROMOVIDO response carrying
the new version. -/
def promoteExec (w : World) (model_id : String) (met : Metrics) (now now₂ : Nat) : ExecResult :=
  let saved := save_model w model_id met now
  let w₂ := update_production_model_info saved.2 model_id saved.1.1 saved.1.2 met now₂
  { world := w₂,
    response :=
      { message := "Modelo " ++ model_id ++ " treinado e PROMOVIDO para producao (versao: "
          ++ saved.1.1 ++ ").",
        model_id := model_id,
        model_version := some saved.1.1,
        metrics := met } }

/-- The non-promotion arm of `TrainModelUseCase.execute`: no side effect,
`model_version = None`, metrics still reported. -/
def rejectExec (w : World) (model_id : String) (met : Metrics) : ExecResult :=
  { world := w,
    response :=
      { message := "Modelo " ++ model_id ++ " treinado, mas NAO PROMOVIDO.",
        model_id := model_id,
        model_version := none,
        metrics := met } }

/-- Embedding of `TrainModelUseCase.execute` after training/evaluation:
load the production entry, promote unconditionally when it is absent, else
promote exactly when the new rmse is strictly smaller. -/
def execute (w : World) (model_id : String) (new_model_metrics : Metrics)
    (now now₂ : Nat) : ExecResult :=
  let production_model_info := load_production_model_info w model_id
  let promote_new_model : Bool :=
    match production_model_info with
    | none => true
    | some info => decide (new_model_metrics.rmse < info.metrics.rmse)
  if promote_new_model then promoteExec w model_id new_model_metrics now now₂
  else rejectExec w model_id new_model_metrics

/-- Metrics of the i-th candidate in a strictly improving training sequence
(each rmse strictly below the previous one). -/
def improvingRmse (i : Nat) : Metrics := { rmse := -(i : ℚ), mae := 0 }

/-- A run of `k` training executions for one model id, the i-th with the
strictly improving metrics `improvingRmse i`. -/
def runImproving (w : World) (m : String) : Nat → World
  | 0 => w
  | k + 1 => (execute (runImproving w m k) m (improvingRmse k) 0 0).world

/-! ## Embedding of `ProphetModel.predict`

The fitted Prophet regressor is a black box producing a `yhat` per
timestamp, modelled as a function `Nat → ℚ`; an untrained model is `none`.
A series is a list of `(timestamp, value)` pairs.  `pd.infer_freq` raises
`ValueError` when given fewer than three values (documented pandas
behaviour); on a strictly increasing index it returns the constant gap when
the timestamps are evenly spaced and `None` otherwise. -/

/-- Exceptions raised by `ProphetModel.predict`: the `RuntimeError` for an
untrained model, the three `ValueError` guards of the method, and an
uncaught library `ValueError`. -/
inductive PredictError where
  | notTrained : PredictError
  | invalidArgument : PredictError
  | emptyInput : PredictError
  | insufficientData : PredictError
  | valueError : String → PredictError
  deriving Repr, DecidableEq

/-- The pandas daily frequency, in seconds. -/
def dayFreq : Nat := 86400

/-- Consecutive differences of a timestamp list. -/
def gaps : List Nat → List Nat
  | [] => []
  | [_] => []
  | a :: b :: t => (b - a) :: gaps (b :: t)

/-- The frequency `pd.infer_freq` reports once it has enough values: the
constant positive gap of an evenly spaced increasing index, else `None`. -/
def inferredOpt (ts : List Nat) : Option Nat :=
  match gaps ts with
  | [] => none
  | g :: gs => if 0 < g ∧ ∀ x ∈ gs, x = g then some g else none

/-- Embedding of `pd.infer_freq`: raises
`ValueError("Need at least 3 dates to infer frequency")` on fewer than three
values, otherwise reports `inferredOpt`. -/
def inferFreq (ts : List Nat) : Except PredictError (Option Nat) :=
  if ts.length < 3 then
    .error (.valueError "Need at least 3 dates to infer frequency")
  else .ok (inferredOpt ts)

/-- Embedding of `series.index.max()` (0 on an empty list, unused there). -/
def maxList (l : List Nat) : Nat := l.foldr max 0

/-- Embedding of `pd.Index.union`: the sorted deduplicated union. -/
def indexUnion (a b : List Nat) : List Nat :=
  List.insertionSort (· ≤ ·) ((a ++ b).dedup)

/-- The frequency the prediction path ends up using once inference has run:
the inferred gap, or the daily default when inference returns `None`. -/
def usedFreq (ts : List Nat) : Nat := (inferredOpt ts).getD dayFreq

/-- The future timestamps generated by
`pd.date_range(start=last_date, periods=n_predict + 1, freq=freq)[1:]`:
`n` timestamps strictly after the last observed one, spaced `usedFreq`
apart. -/
def futureTimes (ts : List Nat) (n : Nat) : List Nat :=
  (List.range n).map (fun k => maxList ts + (k + 1) * usedFreq ts)

/-- An untrained Prophet adapter is `none`; a trained one carries the fitted
black-box regressor. -/
abbrev ProphetModel := Option (Nat → ℚ)

/-- Embedding of `ProphetModel.predict`: guards (untrained, negative
`n_predict`, empty series, fewer than 2 points), frequency inference (whose
`ValueError` is not caught), future date generation from the last observed
timestamp, prediction over the union of the input index and the future
dates, and the filter keeping only rows strictly after the last observed
timestamp. -/
def ProphetModel.predict : ProphetModel → List (Nat × ℚ) → Int →
    Except PredictError (List (Nat × ℚ))
  | none, _, _ => .error .notTrained
  | some m, series, n_predict =>
    if n_predict < 0 then .error .invalidArgument
    else if series.isEmpty then .error .emptyInput
    else if series.length < 2 then .error .insufficientData
    else
      let ts := series.map Prod.fst
      let last_date := maxList ts
      match inferFreq ts with
      | .error e => .error e
      | .ok freqOpt =>
        let freq := freqOpt.getD dayFreq
        let future_dates := (List.range n_predict.toNat).map
          (fun k => last_date + (k + 1) * freq)
        let full_future := indexUnion ts future_dates
        let forecast := full_future.map (fun t => (t, m t))
        .ok (forecast.filter (fun p => decide (last_date < p.1)))

/-! ## Embedding of `AnomalyDetectionModel`

Only the feature schema and row count of a DataFrame matter to the claims,
so a frame is its (numeric) column list, its row count, and whether its
index is a DatetimeIndex.  The Isolation Forest detector is a black box
mapping a row index to an outlier (-1) / inlier (1) label. -/

/-- Schema-level view of a pandas DataFrame. -/
structure Frame where
  cols : List String
  nrows : Nat
  dtIndex : Bool
  deriving Repr, DecidableEq

/-- The rolling window sizes of `_create_features`. -/
def windows : List Nat := [5, 15, 60]

/-- Rolling feature columns generated for one numeric column, in assignment
order (`mean`, `std`, `sum` per window). -/
def rollingCols (c : String) : List String :=
  windows.flatMap (fun w =>
    [c ++ "_rolling_mean_" ++ natDecimal w,
     c ++ "_rolling_std_" ++ natDecimal w,
     c ++ "_rolling_sum_" ++ natDecimal w])

/-- The calendar feature columns appended by `_create_features`. -/
def timeFeatureCols : List String := ["hour", "dayofweek", "dayofyear", "month", "year"]

/-- Column schema produced by `_create_features`: the original columns, the
rolling features for each numeric column, then the calendar features. -/
def createFeatureCols (cols : List String) : List String :=
  cols ++ cols.flatMap rollingCols ++ timeFeatureCols

/-- Mutable state of an `AnomalyDetectionModel`: the schema the scaler was
fitted on (`None` before `train`), and the `self.feature_columns`
attribute — which `_create_features` overwrites on every call. -/
structure AnomalyModel where
  fittedCols : Option (List String)
  feature_columns : List String
  deriving Repr, DecidableEq

/-- A freshly constructed `AnomalyDetectionModel`. -/
def initialAnomalyModel : AnomalyModel := { fittedCols := none, feature_columns := [] }

/-- Embedding of `_create_features`: checks the index, derives the feature
schema, and stores it into `self.feature_columns` (the method mutates the
model on every call, in `predict` as well as in `train`). -/
def create_features (m : AnomalyModel) (f : Frame) : Except String (Frame × AnomalyModel) :=
  if f.dtIndex = false then .error "DataFrame index must be a DatetimeIndex."
  else
    let fc := createFeatureCols f.cols
    .ok ({ cols := fc, nrows := f.nrows, dtIndex := f.dtIndex },
      { m with feature_columns := fc })

/-- Embedding of `AnomalyDetectionModel.train`: empty-frame guard, feature
construction, then `scaler.fit_transform` recording the fitted schema. -/
def AnomalyModel.train (m : AnomalyModel) (f : Frame) : Except String AnomalyModel :=
  if f.nrows = 0 then .error "The DataFrame for training cannot be empty."
  else
    match create_features m f with
    | .error e => .error e
    | .ok (ff, m₁) => .ok { m₁ with fittedCols := some ff.cols }

/-- Embedding of `StandardScaler.transform`: validates the width of the
input against the number of features seen at fit and raises a `ValueError`
on a mismatch. -/
def scalerTransform (fitted : Option (List String)) (cols : List String) :
    Except String Unit :=
  match fitted with
  | none => .error "scaler not fitted"
  | some trainCols =>
    if cols.length = trainCols.length then .ok ()
    else .error "X has a different number of features than during fitting"

/-- Embedding of `AnomalyDetectionModel.predict`: trained-state and index
guards, feature recomputation (which overwrites `self.feature_columns`),
the add-missing-columns loop and the reorder
`features_df[self.feature_columns]` (both against the just-overwritten
attribute), scaling, and one detector label per input row. -/
def AnomalyModel.predict (detector : Nat → Int) (m : AnomalyModel) (f : Frame) :
    Except String (List Int) × AnomalyModel :=
  if m.fittedCols.isNone then
    (.error "The model has not been trained. Call .train() first.", m)
  else if f.dtIndex = false then (.error "DataFrame index must be a DatetimeIndex.", m)
  else
    match create_features m f with
    | .error e => (.error e, m)
    | .ok (ff, m₁) =>
      let _withAdded := ff.cols ++ (m₁.feature_columns.filter (fun c => decide (c ∉ ff.cols)))
      let reordered := m₁.feature_columns
      match scalerTransform m₁.fittedCols reordered with
      | .error e => (.error e, m₁)
      | .ok _ => (.ok ((List.range f.nrows).map detector), m₁)

/-! ## Concrete inputs used by witnesses and counterexamples -/

/-- A fresh world: no registry file, no artifacts, writes succeed. -/
def w0 : World := { registry := .absent, store := [], writeFails := false }

/-- Sample metrics. -/
def met0 : Metrics := { rmse := 1, mae := 1 }

/-- A production entry with rmse 5, as left by an earlier promotion. -/
def tieEntry : ProductionEntry :=
  { version := "v3", path := "models/m_model_v3.joblib",
    metrics := { rmse := 5, mae := 2 }, timestamp_promoted := 11 }

/-- A world whose registry holds `tieEntry` under id `"m"`. -/
def wTie : World :=
  { registry := .valid [("m", tieEntry)], store := ["models/m_model_v3.joblib"],
    writeFails := false }

/-- A world whose registry file is corrupted. -/
def wCorrupt : World := { registry := .corrupt, store := [], writeFails := false }

/-- A world in which writing the registry file raises. -/
def wWriteFail : World := { registry := .absent, store := [], writeFails := true }

/-- A concrete fitted regressor predicting 0 everywhere. -/
def constFit : Nat → ℚ := fun _ => 0

/-- A two-point daily series. -/
def twoPointSeries : List (Nat × ℚ) := [(0, 10), (86400, 12)]

/-- Another two-point series (hourly spacing). -/
def twoPointHourly : List (Nat × ℚ) := [(0, 5), (3600, 6)]

/-- A three-point evenly spaced daily series. -/
def threePointDaily : List (Nat × ℚ) := [(0, 1), (86400, 2), (172800, 3)]

/-- A three-point irregular series (gaps 1 and 4), on which frequency
inference finds no frequency. -/
def threePointIrregular : List (Nat × ℚ) := [(0, 1), (1, 2), (5, 3)]

/-- Training frame for the anomaly claim: one numeric column. -/
def c4TrainFrame : Frame := { cols := ["a"], nrows := 5, dtIndex := true }

/-- Prediction frame for the anomaly claim: the column seen at train time is
missing. -/
def c4PredictFrame : Frame := { cols := [], nrows := 5, dtIndex := true }

/-- A concrete detector marking every row an inlier. -/
def onesDetector : Nat → Int := fun _ => 1

/-- The anomaly model obtained by training on `c4TrainFrame`. -/
def c4TrainedModel : AnomalyModel :=
  match AnomalyModel.train initialAnomalyModel c4TrainFrame with
  | .ok m => m
  | .error _ => initialAnomalyModel

/-! ## Round-trip facts for the version tokens -/

theorem decDigitsRev_lt_base (fuel n : Nat) : ∀ d ∈ decDigitsRev fuel n, d < 10 := by
  induction fuel generalizing n with
  | zero => intro d hd; simp [decDigitsRev] at hd
  | succ fuel ih =>
    intro d hd
    by_cases h : n = 0
    · simp [decDigitsRev, h] at hd
    · simp only [decDigitsRev, if_neg h, List.mem_cons] at hd
      rcases hd with hd | hd
      · subst hd; exact Nat.mod_lt _ (by norm_num)
      · exact ih _ d hd

theorem decDigitsRev_foldr (fuel n : Nat) (hfuel : n ≤ fuel) :
    (decDigitsRev fuel n).foldr (fun d acc => 10 * acc + d) 0 = n := by
  induction fuel generalizing n with
  | zero => interval_cases n; simp [decDigitsRev]
  | succ fuel ih =>
    by_cases h : n = 0
    · simp [decDigitsRev, h]
    · have hdiv : n / 10 ≤ fuel := by
        have h1 : n / 10 < n := Nat.div_lt_self (Nat.pos_of_ne_zero h) (by norm_num)
        omega
      simp only [decDigitsRev, if_neg h, List.foldr_cons, ih _ hdiv]
      omega

theorem decDigitsRev_ne_nil (fuel n : Nat) (hn : n ≠ 0) (hfuel : n ≤ fuel) :
    decDigitsRev fuel n ≠ [] := by
  cases fuel with
  | zero => omega
  | succ fuel => simp [decDigitsRev, hn]

theorem decDigits_lt_base (n : Nat) : ∀ d ∈ decDigits n, d < 10 := by
  intro d hd
  by_cases h : n = 0
  · simp [decDigits, h] at hd; omega
  · rw [decDigits, if_neg h] at hd
    exact decDigitsRev_lt_base n n d hd

theorem decDigits_foldr (n : Nat) :
    (decDigits n).foldr (fun d acc => 10 * acc + d) 0 = n := by
  by_cases h : n = 0
  · simp [decDigits, h]
  · rw [decDigits, if_neg h]
    exact decDigitsRev_foldr n n le_rfl

theorem decDigits_ne_nil (n : Nat) : decDigits n ≠ [] := by
  by_cases h : n = 0
  · simp [decDigits, h]
  · rw [decDigits, if_neg h]
    exact decDigitsRev_ne_nil n n h le_rfl

theorem digit_char_toNat (d : Nat) (h : d < 10) : (Char.ofNat (48 + d)).toNat = 48 + d := by
  interval_cases d <;> decide

theorem digit_char_isDigit (d : Nat) (h : d < 10) : (Char.ofNat (48 + d)).isDigit = true := by
  interval_cases d <;> decide

theorem digit_char_ne_v (d : Nat) (h : d < 10) : Char.ofNat (48 + d) ≠ 'v' := by
  interval_cases d <;> decide

theorem toList_natDecimal (n : Nat) :
    (natDecimal n).toList = (decDigits n).reverse.map (fun d => Char.ofNat (48 + d)) := by
  rw [natDecimal, List.toList_asString]

theorem natDecimal_chars_digits (n : Nat) :
    ∀ c ∈ (natDecimal n).toList, c.isDigit = true := by
  intro c hc
  rw [toList_natDecimal] at hc
  simp only [List.mem_map, List.mem_reverse] at hc
  obtain ⟨d, hd, rfl⟩ := hc
  exact digit_char_isDigit d (decDigits_lt_base n d hd)

theorem natDecimal_ne_nil (n : Nat) : (natDecimal n).toList ≠ [] := by
  rw [toList_natDecimal]
  simp only [ne_eq, List.map_eq_nil_iff, List.reverse_eq_nil_iff]
  exact decDigits_ne_nil n

theorem strToNatOpt_natDecimal (n : Nat) : strToNatOpt (natDecimal n) = some n := by
  have hdig := natDecimal_chars_digits n
  rw [strToNatOpt, if_pos ⟨natDecimal_ne_nil n, hdig⟩]
  congr 1
  rw [toList_natDecimal, List.foldl_map, List.foldl_reverse]
  have : ((decDigits n).foldr
      (fun c acc => 10 * acc + digitVal (Char.ofNat (48 + c))) 0) =
      ((decDigits n).foldr (fun d acc => 10 * acc + d) 0) := by
    apply List.foldr_ext
    intro d hd acc
    have hlt := decDigits_lt_base n d hd
    rw [digitVal, digit_char_toNat d hlt]
    omega
  rw [this, decDigits_foldr n]

theorem stripV_vstr (n : Nat) : stripV (vstr n) = natDecimal n := by
  have hchars : ∀ c ∈ (natDecimal n).toList, c ≠ 'v' := by
    intro c hc
    rw [toList_natDecimal] at hc
    simp only [List.mem_map, List.mem_reverse] at hc
    obtain ⟨d, hd, rfl⟩ := hc
    exact digit_char_ne_v d (decDigits_lt_base n d hd)
  have htl : (vstr n).toList = 'v' :: (natDecimal n).toList := by
    rw [vstr]
    rfl
  rw [stripV, htl]
  simp only [List.filter_cons]
  norm_num
  rw [List.filter_eq_self.mpr (by intro c hc; simpa using hchars c hc)]
  exact String.asString_toList _

theorem parseVersionNum_vstr (n : Nat) : parseVersionNum (vstr n) = n := by
  rw [parseVersionNum, stripV_vstr, strToNatOpt_natDecimal]
  rfl

/-! ## Basic registry facts -/

theorem dictGet_dictSet_self (l : List (String × ProductionEntry)) (k : String)
    (v : ProductionEntry) : dictGet (dictSet l k v) k = some v := by
  induction l with
  | nil => simp [dictGet, dictSet]
  | cons h t ih =>
    obtain ⟨k₁, v₁⟩ := h
    by_cases hk : k₁ = k
    · simp [dictGet, dictSet, hk]
    · simp [dictGet, dictSet, hk, ih]

theorem update_writeFails (w : World) (a v p : String) (met : Metrics) (now : Nat) :
    (update_production_model_info w a v p met now).writeFails = w.writeFails := by
  by_cases hw : w.writeFails <;> simp [update_production_model_info, hw]

theorem update_of_writeFails (w : World) (a v p : String) (met : Metrics) (now : Nat)
    (hw : w.writeFails = true) : update_production_model_info w a v p met now = w := by
  simp [update_production_model_info, hw]

theorem load_update_self (w : World) (a v p : String) (met : Metrics) (now : Nat)
    (hw : w.writeFails = false) :
    load_production_model_info (update_production_model_info w a v p met now) a =
      some { version := v, path := p, metrics := met, timestamp_promoted := now } := by
  simp [update_production_model_info, hw, load_production_model_info, dictGet_dictSet_self]

theorem save_model_writeFails (w : World) (a : String) (met : Metrics) (now : Nat) :
    (save_model w a met now).2.writeFails = w.writeFails := by
  simp [save_model, save_model_mid, update_writeFails]

theorem save_model_fst (w : World) (a : String) (met : Metrics) (now : Nat) :
    (save_model w a met now).1 =
      (getNextVersion w.registry a, modelFilePath a (getNextVersion w.registry a)) := rfl

theorem save_model_registry (w : World) (a : String) (met : Metrics) (now : Nat) :
    (save_model w a met now).2.registry = (save_model_mid w a met now).registry := rfl

theorem load_save_model (w : World) (a : String) (met : Metrics) (now : Nat)
    (hw : w.writeFails = false) :
    load_production_model_info (save_model w a met now).2 a =
      some { version := getNextVersion w.registry a,
             path := modelFilePath a (getNextVersion w.registry a),
             metrics := met, timestamp_promoted := now } :=
  load_update_self w a (getNextVersion w.registry a)
    (modelFilePath a (getNextVersion w.registry a)) met now hw

theorem getNextVersion_of_load_none (w : World) (m : String)
    (hl : load_production_model_info w m = none) :
    getNextVersion w.registry m = vstr 1 := by
  cases hreg : w.registry with
  | absent => simp [getNextVersion, hreg]
  | corrupt => simp [getNextVersion, hreg]
  | valid entries =>
    simp only [load_production_model_info, hreg] at hl
    simp [getNextVersion, hreg, hl]

theorem getNextVersion_of_load_some (w : World) (m : String) (e : ProductionEntry)
    (hl : load_production_model_info w m = some e) :
    getNextVersion w.registry m = vstr (parseVersionNum e.version + 1) := by
  cases hreg : w.registry with
  | absent => simp [load_production_model_info, hreg] at hl
  | corrupt => simp [load_production_model_info, hreg] at hl
  | valid entries =>
    simp only [load_production_model_info, hreg] at hl
    simp [getNextVersion, hreg, hl]

/-! ## Facts about the use case's branches -/

theorem execute_of_none (w : World) (m : String) (met : Metrics) (now now₂ : Nat)
    (hl : load_production_model_info w m = none) :
    execute w m met now now₂ = promoteExec w m met now now₂ := by
  unfold execute
  simp [hl]

theorem execute_of_some_lt (w : World) (m : String) (met : Metrics) (now now₂ : Nat)
    (e : ProductionEntry) (hl : load_production_model_info w m = some e)
    (hlt : met.rmse < e.metrics.rmse) :
    execute w m met now now₂ = promoteExec w m met now now₂ := by
  unfold execute
  simp [hl, hlt]

theorem execute_of_some_ge (w : World) (m : String) (met : Metrics) (now now₂ : Nat)
    (e : ProductionEntry) (hl : load_production_model_info w m = some e)
    (hge : ¬ met.rmse < e.metrics.rmse) :
    execute w m met now now₂ = rejectExec w m met := by
  unfold execute
  simp [hl, hge]

theorem promoteExec_model_version (w : World) (m : String) (met : Metrics) (now now₂ : Nat) :
    (promoteExec w m met now now₂).response.model_version =
      some (getNextVersion w.registry m) := rfl

theorem promoteExec_load (w : World) (m : String) (met : Metrics) (now now₂ : Nat)
    (hw : w.writeFails = false) :
    load_production_model_info (promoteExec w m met now now₂).world m =
      some { version := getNextVersion w.registry m,
             path := modelFilePath m (getNextVersion w.registry m),
             metrics := met, timestamp_promoted := now₂ } :=
  load_update_self (save_model w m met now).2 m (getNextVersion w.registry m)
    (modelFilePath m (getNextVersion w.registry m)) met now₂
    (by rw [save_model_writeFails]; exact hw)

theorem promoteExec_writeFails (w : World) (m : String) (met : Metrics) (now now₂ : Nat) :
    (promoteExec w m met now now₂).world.writeFails = w.writeFails := by
  show (update_production_model_info _ _ _ _ _ _).writeFails = _
  rw [update_writeFails, save_model_writeFails]

theorem execute_writeFails (w : World) (m : String) (met : Metrics) (now now₂ : Nat) :
    (execute w m met now now₂).world.writeFails = w.writeFails := by
  unfold execute
  cases hl : load_production_model_info w m with
  | none => simpa using promoteExec_writeFails w m met now now₂
  | some e =>
    by_cases hlt : met.rmse < e.metrics.rmse
    · simpa [hlt] using promoteExec_writeFails w m met now now₂
    · simp [hlt, rejectExec]

theorem runImproving_writeFails (w : World) (m : String) (k : Nat) :
    (runImproving w m k).writeFails = w.writeFails := by
  induction k with
  | zero => rfl
  | succ k ih => rw [runImproving, execute_writeFails, ih]

theorem improvingRmse_strict (k : Nat) :
    (improvingRmse (k + 1)).rmse < (improvingRmse k).rmse := by
  simp only [improvingRmse]
  push_cast
  linarith

theorem runImproving_load (w : World) (m : String) (hw : w.writeFails = false)
    (h0 : load_production_model_info w m = none) (k : Nat) :
    load_production_model_info (runImproving w m (k + 1)) m =
      some { version := vstr (k + 1), path := modelFilePath m (vstr (k + 1)),
             metrics := improvingRmse k, timestamp_promoted := 0 } := by
  induction k with
  | zero =>
    show load_production_model_info (execute w m (improvingRmse 0) 0 0).world m = _
    rw [execute_of_none w m (improvingRmse 0) 0 0 h0,
      promoteExec_load w m (improvingRmse 0) 0 0 hw,
      getNextVersion_of_load_none w m h0]
  | succ k ih =>
    have hw₁ : (runImproving w m (k + 1)).writeFails = false := by
      rw [runImproving_writeFails]; exact hw
    show load_production_model_info
      (execute (runImproving w m (k + 1)) m (improvingRmse (k + 1)) 0 0).world m = _
    rw [execute_of_some_lt (runImproving w m (k + 1)) m (improvingRmse (k + 1)) 0 0 _ ih
        (by simpa using improvingRmse_strict k),
      promoteExec_load _ m (improvingRmse (k + 1)) 0 0 hw₁,
      getNextVersion_of_load_some _ m _ ih]
    simp [parseVersionNum_vstr]

/-! ## The claims -/

/-- C1: refuted as stated; the code performs the two promotion steps in the
opposite order.  Inside `save_model` the Production Registry is rewritten
(via `update_production_model_info`, line 53) before `joblib.dump` persists
the artifact (line 55), so at the intermediate state `save_model_mid` of a
first promotion for `"m"` the registry entry for `"m"` exists and references
`models/m_model_v1.joblib` while the store contains no artifact at all; the
final conjunct shows that `save_model` reaches exactly this intermediate
registry state and only afterwards adds the artifact.  A crash between the
two steps therefore leaves the registry pointing at a non-existent
artifact. -/
theorem registry_points_to_missing_artifact_mid_promotion :
    load_production_model_info (save_model_mid w0 "m" met0 0) "m" =
      some { version := vstr 1, path := modelFilePath "m" (vstr 1),
             metrics := met0, timestamp_promoted := 0 }
    ∧ (save_model_mid w0 "m" met0 0).store = []
    ∧ (save_model w0 "m" met0 0).2 =
        { save_model_mid w0 "m" met0 0 with store := [modelFilePath "m" (vstr 1)] } := by
  refine ⟨rfl, rfl, rfl⟩

/-- C2: for every training run, an absent production entry promotes
unconditionally; with an existing entry the candidate is promoted exactly
when its rmse is strictly below the recorded one, and a tie promotes
nothing and leaves the whole world (hence the production entry) in place. -/
theorem promotion_decision_strictness (w : World) (m : String) (met : Metrics)
    (now now₂ : Nat) :
    (load_production_model_info w m = none →
      (execute w m met now now₂).response.model_version =
        some (getNextVersion w.registry m))
    ∧ ∀ e, load_production_model_info w m = some e →
        (((execute w m met now now₂).response.model_version.isSome = true ↔
            met.rmse < e.metrics.rmse)
          ∧ (met.rmse = e.metrics.rmse →
              (execute w m met now now₂).world = w
              ∧ (execute w m met now now₂).response.model_version = none)) := by
  constructor
  · intro hl
    rw [execute_of_none w m met now now₂ hl, promoteExec_model_version]
  · intro e hl
    constructor
    · by_cases hlt : met.rmse < e.metrics.rmse
      · rw [execute_of_some_lt w m met now now₂ e hl hlt, promoteExec_model_version]
        simpa using hlt
      · rw [execute_of_some_ge w m met now now₂ e hl hlt]
        simpa [rejectExec] using hlt
    · intro heq
      have hge : ¬ met.rmse < e.metrics.rmse := by rw [heq]; exact lt_irrefl _
      rw [execute_of_some_ge w m met now now₂ e hl hge]
      exact ⟨rfl, rfl⟩

/-- C2 witness: a concrete tie (rmse 5 against recorded rmse 5) does not
promote and leaves the world untouched. -/
theorem promotion_decision_strictness_witness :
    (execute wTie "m" { rmse := 5, mae := 0 } 0 0).world = wTie
    ∧ (execute wTie "m" { rmse := 5, mae := 0 } 0 0).response.model_version = none :=
  ((promotion_decision_strictness wTie "m" { rmse := 5, mae := 0 } 0 0).2 tieEntry rfl).2 rfl

/-- C3: counterexample to the claim that `save_model` leaves the Production
Registry unchanged: on a fresh world a bare `save_model` call creates the
registry entry for the id. -/
theorem save_model_changes_registry :
    load_production_model_info w0 "app" = none
    ∧ load_production_model_info (save_model w0 "app" met0 3).2 "app" =
        some { version := vstr 1, path := modelFilePath "app" (vstr 1),
               metrics := met0, timestamp_promoted := 3 } := by
  refine ⟨rfl, rfl⟩

/-- C3 (amended): `save_model` persists the artifact AND itself rewrites the
Production Registry entry for the id (before dumping the artifact), so a
bare save yields an artifact that is retrievable by `(model_id, version)`
and IS referenced as serving. -/
theorem save_model_registers_entry (w : World) (a : String) (met : Metrics) (now : Nat)
    (hw : w.writeFails = false) :
    load_production_model_info (save_model w a met now).2 a =
      some { version := getNextVersion w.registry a,
             path := modelFilePath a (getNextVersion w.registry a),
             metrics := met, timestamp_promoted := now }
    ∧ modelFilePath a (getNextVersion w.registry a) ∈ (save_model w a met now).2.store := by
  refine ⟨load_save_model w a met now hw, ?_⟩
  show _ ∈ modelFilePath a (getNextVersion w.registry a) :: _
  exact List.mem_cons_self _ _

/-- C3 (amended) witness: the concrete fresh-world save. -/
theorem save_model_registers_entry_witness :
    load_production_model_info (save_model w0 "app" met0 3).2 "app" =
      some { version := getNextVersion w0.registry "app",
             path := modelFilePath "app" (getNextVersion w0.registry "app"),
             metrics := met0, timestamp_promoted := 3 }
    ∧ modelFilePath "app" (getNextVersion w0.registry "app")
        ∈ (save_model w0 "app" met0 3).2.store :=
  save_model_registers_entry w0 "app" met0 3 rfl

/-- C5: the version token of the next save is `v(n+1)` when the current
production entry for the id carries the numeric token `vn`, and `v1` when no
entry exists or the token is non-numeric; consequently a run of `k + 1`
strictly improving (hence all promoted) training executions starting from a
registry with no entry for the id ends with the entry at version
`v(k + 1)` — versions are the strictly increasing integers 1, 2, … with no
gaps. -/
theorem version_assignment_monotone :
    (∀ w : World, ∀ m : String, load_production_model_info w m = none →
      getNextVersion w.registry m = vstr 1)
    ∧ (∀ w : World, ∀ m : String, ∀ e : ProductionEntry, ∀ n : Nat,
        load_production_model_info w m = some e → e.version = vstr n →
        getNextVersion w.registry m = vstr (n + 1))
    ∧ (∀ w : World, ∀ m : String, ∀ e : ProductionEntry,
        load_production_model_info w m = some e → isNumericVersion e.version = false →
        getNextVersion w.registry m = vstr 1)
    ∧ (∀ w : World, ∀ m : String, ∀ k : Nat,
        w.writeFails = false → load_production_model_info w m = none →
        load_production_model_info (runImproving w m (k + 1)) m =
          some { version := vstr (k + 1), path := modelFilePath m (vstr (k + 1)),
                 metrics := improvingRmse k, timestamp_promoted := 0 }) := by
  refine ⟨fun w m hl => getNextVersion_of_load_none w m hl, ?_, ?_, ?_⟩
  · intro w m e n hl hv
    rw [getNextVersion_of_load_some w m e hl, hv, parseVersionNum_vstr]
  · intro w m e hl hnum
    rw [getNextVersion_of_load_some w m e hl]
    have hnone : strToNatOpt (stripV e.version) = none := by
      rw [isNumericVersion] at hnum
      cases h : strToNatOpt (stripV e.version) with
      | none => rfl
      | some x => rw [h] at hnum; simp at hnum
    have : parseVersionNum e.version = 0 := by
      rw [parseVersionNum, hnone]
      rfl
    rw [this]
  · intro w m k hw h0
    exact runImproving_load w m hw h0 k

/-- C5 witness: on a fresh world the first version is `v1`, and two strictly
improving runs end at version `v2`. -/
theorem version_assignment_monotone_witness :
    getNextVersion w0.registry "m" = vstr 1
    ∧ load_production_model_info (runImproving w0 "m" 2) "m" =
        some { version := vstr 2, path := modelFilePath "m" (vstr 2),
               metrics := improvingRmse 1, timestamp_promoted := 0 } :=
  ⟨version_assignment_monotone.1 w0 "m" rfl,
   version_assignment_monotone.2.2.2 w0 "m" 1 rfl rfl⟩

/-- C8: with a corrupted registry file, reads return absent instead of
raising, and a subsequent set resets the corrupt contents and writes back a
registry containing only the newly inserted entry. -/
theorem corrupted_registry_tolerance (w : World) (m : String)
    (hreg : w.registry = .corrupt) :
    load_production_model_info w m = none
    ∧ ∀ version path : String, ∀ met : Metrics, ∀ now : Nat, w.writeFails = false →
        (update_production_model_info w m version path met now).registry =
          .valid [(m, { version := version, path := path, metrics := met,
                        timestamp_promoted := now })] := by
  constructor
  · simp [load_production_model_info, hreg]
  · intro version path met now hw
    simp [update_production_model_info, hw, hreg, readRegistryForUpdate, dictSet]

/-- C8 witness: the concrete corrupted world. -/
theorem corrupted_registry_tolerance_witness :
    load_production_model_info wCorrupt "m" = none
    ∧ (update_production_model_info wCorrupt "m" "v1" "p" met0 7).registry =
        .valid [("m", { version := "v1", path := "p", metrics := met0,
                        timestamp_promoted := 7 })] :=
  ⟨(corrupted_registry_tolerance wCorrupt "m" rfl).1,
   (corrupted_registry_tolerance wCorrupt "m" rfl).2 "v1" "p" met0 7 rfl⟩

/-- C9: a non-promoted training run (an entry exists and the new rmse is not
strictly smaller) leaves the world — registry and artifact store — entirely
unchanged, while the response still carries the candidate's metrics and no
new model version. -/
theorem non_promotion_leaves_state_unchanged (w : World) (m : String) (met : Metrics)
    (now now₂ : Nat) (e : ProductionEntry)
    (hl : load_production_model_info w m = some e)
    (hge : ¬ met.rmse < e.metrics.rmse) :
    (execute w m met now now₂).world = w
    ∧ (execute w m met now now₂).response.metrics = met
    ∧ (execute w m met now now₂).response.model_version = none := by
  rw [execute_of_some_ge w m met now now₂ e hl hge]
  exact ⟨rfl, rfl, rfl⟩

/-- C9 witness: a concrete worse candidate (rmse 9 against recorded 5). -/
theorem non_promotion_leaves_state_unchanged_witness :
    (execute wTie "m" { rmse := 9, mae := 0 } 0 0).world = wTie
    ∧ (execute wTie "m" { rmse := 9, mae := 0 } 0 0).response.metrics =
        { rmse := 9, mae := 0 }
    ∧ (execute wTie "m" { rmse := 9, mae := 0 } 0 0).response.model_version = none :=
  non_promotion_leaves_state_unchanged wTie "m" { rmse := 9, mae := 0 } 0 0 tieEntry rfl
    (by norm_num [tieEntry])

/-- C10: when writing the registry file raises, `update_production_model_info`
catches the exception and returns normally with the on-disk registry
unchanged; consequently a promotion whose registry write fails still returns
a success response naming the new version while the registry is unchanged. -/
theorem registry_write_failure_swallowed (w : World) (hw : w.writeFails = true) :
    (∀ a v p : String, ∀ met : Metrics, ∀ now : Nat,
      update_production_model_info w a v p met now = w)
    ∧ ∀ m : String, ∀ met : Metrics, ∀ now now₂ : Nat,
        (∀ e, load_production_model_info w m = some e → met.rmse < e.metrics.rmse) →
        ((execute w m met now now₂).response.model_version =
            some (getNextVersion w.registry m)
          ∧ (execute w m met now now₂).world.registry = w.registry) := by
  constructor
  · intro a v p met now
    exact update_of_writeFails w a v p met now hw
  · intro m met now now₂ hp
    have hex : execute w m met now now₂ = promoteExec w m met now now₂ := by
      cases hl : load_production_model_info w m with
      | none => exact execute_of_none w m met now now₂ hl
      | some e => exact execute_of_some_lt w m met now now₂ e hl (hp e hl)
    rw [hex]
    refine ⟨promoteExec_model_version w m met now now₂, ?_⟩
    show (update_production_model_info (save_model w m met now).2 _ _ _ _ _).registry = _
    rw [update_of_writeFails _ _ _ _ _ _ (by rw [save_model_writeFails]; exact hw)]
    rw [save_model_registry]
    show (update_production_model_info w _ _ _ _ _).registry = _
    rw [update_of_writeFails _ _ _ _ _ _ hw]

/-- C10 witness: the concrete failing-write world; the update is a no-op and
the promotion still reports version `v1` while the registry stays absent. -/
theorem registry_write_failure_swallowed_witness :
    update_production_model_info wWriteFail "a" "v9" "p" met0 3 = wWriteFail
    ∧ ((execute wWriteFail "m" met0 0 0).response.model_version =
          some (getNextVersion wWriteFail.registry "m")
        ∧ (execute wWriteFail "m" met0 0 0).world.registry = wWriteFail.registry) :=
  ⟨(registry_write_failure_swallowed wWriteFail rfl).1 "a" "v9" "p" met0 3,
   (registry_write_failure_swallowed wWriteFail rfl).2 "m" met0 0 0
     (fun e he => by rw [show load_production_model_info wWriteFail "m" = none from rfl] at he
                     exact absurd he (by simp))⟩

/-! ## Facts about the prediction path -/

theorem le_maxList (l : List Nat) : ∀ x ∈ l, x ≤ maxList l := by
  induction l with
  | nil => simp
  | cons a t ih =>
    intro x hx
    show x ≤ max a (maxList t)
    rcases List.mem_cons.mp hx with h | h
    · subst h; exact le_max_left _ _
    · exact le_trans (ih x h) (le_max_right _ _)

theorem mem_indexUnion (a b : List Nat) (x : Nat) :
    x ∈ indexUnion a b ↔ x ∈ a ∨ x ∈ b := by
  unfold indexUnion
  rw [(List.perm_insertionSort _ _).mem_iff, List.mem_dedup, List.mem_append]

theorem nodup_indexUnion (a b : List Nat) : (indexUnion a b).Nodup := by
  unfold indexUnion
  exact ((List.perm_insertionSort _ _).nodup_iff).mpr ((a ++ b).nodup_dedup)

theorem sorted_indexUnion (a b : List Nat) : List.Sorted (· ≤ ·) (indexUnion a b) := by
  unfold indexUnion
  exact List.sorted_insertionSort _ _

theorem inferredOpt_pos (ts : List Nat) (g : Nat) (h : inferredOpt ts = some g) : 0 < g := by
  unfold inferredOpt at h
  split at h
  · exact absurd h (by simp)
  · split at h
    · rename_i hc
      injection h with h₁
      subst h₁
      exact hc.1
    · exact absurd h (by simp)

theorem usedFreq_pos (ts : List Nat) : 0 < usedFreq ts := by
  unfold usedFreq
  cases h : inferredOpt ts with
  | none => norm_num [dayFreq]
  | some g => simpa using inferredOpt_pos ts g h

theorem futureTimes_length (ts : List Nat) (n : Nat) : (futureTimes ts n).length = n := by
  simp [futureTimes]

theorem futureTimes_gt (ts : List Nat) (n : Nat) :
    ∀ t ∈ futureTimes ts n, maxList ts < t := by
  intro t ht
  unfold futureTimes at ht
  simp only [List.mem_map, List.mem_range] at ht
  obtain ⟨k, hk, rfl⟩ := ht
  have hf := usedFreq_pos ts
  have hpos : 0 < (k + 1) * usedFreq ts := by positivity
  omega

theorem futureTimes_sorted (ts : List Nat) (n : Nat) :
    List.Pairwise (· < ·) (futureTimes ts n) := by
  unfold futureTimes
  rw [List.pairwise_map]
  refine List.Pairwise.imp ?_ (List.pairwise_lt_range n)
  intro a b hab
  exact Nat.add_lt_add_left ((Nat.mul_lt_mul_right (usedFreq_pos ts)).mpr (by omega)) _

theorem futureTimes_not_mem (ts : List Nat) (n : Nat) :
    ∀ t ∈ futureTimes ts n, t ∉ ts := by
  intro t ht hmem
  exact absurd (le_maxList ts t hmem) (not_le.mpr (futureTimes_gt ts n t ht))

theorem filter_indexUnion_gt (ts fut : List Nat) (last : Nat)
    (hts : ∀ x ∈ ts, x ≤ last) (hfut : ∀ y ∈ fut, last < y)
    (hsorted : List.Pairwise (· < ·) fut) :
    (indexUnion ts fut).filter (fun t => decide (last < t)) = fut := by
  have hnodupF : ((indexUnion ts fut).filter (fun t => decide (last < t))).Nodup :=
    (nodup_indexUnion ts fut).filter _
  have hfutnodup : fut.Nodup := hsorted.imp (fun h => ne_of_lt h)
  have hmem : ∀ x, x ∈ (indexUnion ts fut).filter (fun t => decide (last < t)) ↔ x ∈ fut := by
    intro x
    rw [List.mem_filter, mem_indexUnion]
    constructor
    · rintro ⟨hx | hx, hlt⟩
      · exact absurd (of_decide_eq_true hlt) (not_lt.mpr (hts x hx))
      · exact hx
    · intro hx
      exact ⟨Or.inr hx, decide_eq_true (hfut x hx)⟩
  have hsortF : List.Sorted (· ≤ ·)
      ((indexUnion ts fut).filter (fun t => decide (last < t))) :=
    (sorted_indexUnion ts fut).filter _
  have hsortFut : List.Sorted (· ≤ ·) fut := hsorted.imp le_of_lt
  exact List.eq_of_perm_of_sorted
    ((List.perm_ext_iff_of_nodup hnodupF hfutnodup).mpr hmem) hsortF hsortFut

theorem inferFreq_of_three (ts : List Nat) (h : ¬ ts.length < 3) :
    inferFreq ts = .ok (inferredOpt ts) := by
  unfold inferFreq
  rw [if_neg h]

theorem prophetPredict_ok (m : Nat → ℚ) (series : List (Nat × ℚ)) (n : Int)
    (hn : 0 ≤ n) (hlen : 3 ≤ series.length)
    (_hsorted : List.Pairwise (· < ·) (series.map Prod.fst)) :
    ProphetModel.predict (some m) series n =
      .ok ((futureTimes (series.map Prod.fst) n.toNat).map (fun t => (t, m t))) := by
  have hne : series ≠ [] := by
    intro h; rw [h] at hlen; simp at hlen
  have hemp : series.isEmpty = false := List.isEmpty_eq_false.mpr hne
  have h2 : ¬ series.length < 2 := by omega
  have h0 : ¬ n < 0 := by omega
  have h3 : ¬ (series.map Prod.fst).length < 3 := by
    rw [List.length_map]; omega
  simp only [ProphetModel.predict]
  rw [if_neg h0, hemp]
  simp only [Bool.false_eq_true, if_false, if_neg h2,
    inferFreq_of_three (series.map Prod.fst) h3]
  rw [List.filter_map]
  show Except.ok
      (((indexUnion (series.map Prod.fst) (futureTimes (series.map Prod.fst) n.toNat)).filter
          (fun t => decide (maxList (series.map Prod.fst) < t))).map
        (fun t => (t, m t))) =
    Except.ok ((futureTimes (series.map Prod.fst) n.toNat).map (fun t => (t, m t)))
  rw [filter_indexUnion_gt (series.map Prod.fst) _ (maxList (series.map Prod.fst))
    (le_maxList _) (futureTimes_gt _ n.toNat) (futureTimes_sorted _ n.toNat)]

/-! ## The forecasting and anomaly claims -/

/-- C6: counterexample to the claim for series of exactly 2 points.  The
`len < 2` guard passes, but the library frequency inference needs at least
3 values and raises, so `predict` does not return `n_predict` pairs: it
propagates the `ValueError`. -/
theorem forecast_two_point_series_raises :
    ProphetModel.predict (some constFit) twoPointSeries 1 =
      .error (.valueError "Need at least 3 dates to infer frequency") := rfl

/-- C6 (amended): for every trained model, every time-ordered input series
with at least 3 points and every `n_predict ≥ 0`, predict returns exactly
the `n_predict` pairs over the timestamps `last + (k+1)·freq`
(`freq` the inferred gap, daily when inference finds none): all strictly
greater than `max(series.timestamps)`, strictly increasing, evenly spaced,
and none of them a historical input timestamp.  (With exactly 2 points the
call raises instead, see the counterexample.) -/
theorem forecast_horizon_exact (m : Nat → ℚ) (series : List (Nat × ℚ)) (n : Int)
    (hn : 0 ≤ n) (hlen : 3 ≤ series.length)
    (hsorted : List.Pairwise (· < ·) (series.map Prod.fst)) :
    ProphetModel.predict (some m) series n =
      .ok ((futureTimes (series.map Prod.fst) n.toNat).map (fun t => (t, m t)))
    ∧ (futureTimes (series.map Prod.fst) n.toNat).length = n.toNat
    ∧ (∀ t ∈ futureTimes (series.map Prod.fst) n.toNat,
        maxList (series.map Prod.fst) < t)
    ∧ List.Pairwise (· < ·) (futureTimes (series.map Prod.fst) n.toNat)
    ∧ (∀ t ∈ futureTimes (series.map Prod.fst) n.toNat, t ∉ series.map Prod.fst) :=
  ⟨prophetPredict_ok m series n hn hlen hsorted,
   futureTimes_length _ _, futureTimes_gt _ _, futureTimes_sorted _ _,
   futureTimes_not_mem _ _⟩

/-- C6 witness: predicting 2 steps on a concrete 3-point daily series yields
exactly the two next daily timestamps. -/
theorem forecast_horizon_exact_witness :
    ProphetModel.predict (some constFit) threePointDaily 2 =
      .ok [(259200, 0), (345600, 0)] :=
  (forecast_horizon_exact constFit threePointDaily 2 (by decide) (by decide)
    (by decide)).1

/-- C7: counterexample to the claim that frequency-inference failure never
raises once the guards pass: a 2-point series passes every guard
(`n_predict ≥ 0`, non-empty, `len ≥ 2`), yet predict raises the library's
`ValueError` instead of defaulting to daily frequency. -/
theorem prophet_two_point_inference_raises :
    ProphetModel.predict (some constFit) twoPointHourly 2 =
      .error (.valueError "Need at least 3 dates to infer frequency") := rfl

/-- C7 (amended): predict raises the not-trained error before anything else,
the invalid-argument error on `n_predict < 0`, the empty-input error on an
empty series and the insufficient-data error on a 1-point series; when the
guards pass and the series has at least 3 time-ordered points, a frequency
inference that finds no frequency does not raise: predict falls back to the
daily frequency.  (With exactly 2 points the library inference itself
raises, see the counterexample.) -/
theorem prophet_predict_error_protocol (m : Nat → ℚ) (series : List (Nat × ℚ)) (n : Int) :
    (ProphetModel.predict none series n = .error .notTrained)
    ∧ (n < 0 → ProphetModel.predict (some m) series n = .error .invalidArgument)
    ∧ (0 ≤ n → series = [] →
        ProphetModel.predict (some m) series n = .error .emptyInput)
    ∧ (0 ≤ n → series.length = 1 →
        ProphetModel.predict (some m) series n = .error .insufficientData)
    ∧ (0 ≤ n → 3 ≤ series.length → List.Pairwise (· < ·) (series.map Prod.fst) →
        inferredOpt (series.map Prod.fst) = none →
        (ProphetModel.predict (some m) series n =
            .ok ((futureTimes (series.map Prod.fst) n.toNat).map (fun t => (t, m t)))
          ∧ usedFreq (series.map Prod.fst) = dayFreq)) := by
  refine ⟨rfl, ?_, ?_, ?_, ?_⟩
  · intro hneg
    simp only [ProphetModel.predict]
    rw [if_pos hneg]
  · intro hn hnil
    subst hnil
    simp only [ProphetModel.predict]
    rw [if_neg (by omega)]
    rfl
  · intro hn hone
    have hne : series ≠ [] := by
      intro h; rw [h] at hone; simp at hone
    have hemp : series.isEmpty = false := List.isEmpty_eq_false.mpr hne
    simp only [ProphetModel.predict]
    rw [if_neg (by omega), hemp]
    simp only [Bool.false_eq_true, if_false]
    rw [if_pos (by omega)]
  · intro hn hlen hsorted hnone
    refine ⟨prophetPredict_ok m series n hn hlen hsorted, ?_⟩
    rw [usedFreq, hnone]
    rfl

/-- C7 witness: the guards and the daily fallback on concrete inputs (an
empty series, a negative horizon, a singleton series, an untrained model,
and an irregular 3-point series on which inference finds no frequency and
predict defaults to daily spacing). -/
theorem prophet_predict_error_protocol_witness :
    ProphetModel.predict none threePointDaily 1 = .error .notTrained
    ∧ ProphetModel.predict (some constFit) threePointDaily (-1) =
        .error .invalidArgument
    ∧ ProphetModel.predict (some constFit) [] 2 = .error .emptyInput
    ∧ ProphetModel.predict (some constFit) [(0, 1)] 2 = .error .insufficientData
    ∧ ProphetModel.predict (some constFit) threePointIrregular 2 =
        .ok [(86405, 0), (172805, 0)]
    ∧ usedFreq (threePointIrregular.map Prod.fst) = dayFreq :=
  ⟨(prophet_predict_error_protocol constFit threePointDaily 1).1,
   (prophet_predict_error_protocol constFit threePointDaily (-1)).2.1 (by decide),
   (prophet_predict_error_protocol constFit [] 2).2.2.1 (by decide) rfl,
   (prophet_predict_error_protocol constFit [(0, 1)] 2).2.2.2.1 (by decide) rfl,
   ((prophet_predict_error_protocol constFit threePointIrregular 2).2.2.2.2
     (by decide) (by decide) (by decide) (by decide)).1,
   ((prophet_predict_error_protocol constFit threePointIrregular 2).2.2.2.2
     (by decide) (by decide) (by decide) (by decide)).2⟩

/-- C4: refuted as stated; the code's schema reconciliation is dead.
`predict` calls `_create_features`, which overwrites
`self.feature_columns` with the new frame's schema (third conjunct), so the
add-missing-columns loop and the reorder compare that schema with itself and
change nothing, and the scaler then rejects the differently sized feature
matrix: predicting on a frame missing a column seen at train time fails
with the scaler's feature-count `ValueError` instead of synthesizing the
missing features as zero. -/
theorem anomaly_predict_schema_mismatch_fails :
    AnomalyModel.train initialAnomalyModel c4TrainFrame = .ok c4TrainedModel
    ∧ (AnomalyModel.predict onesDetector c4TrainedModel c4PredictFrame).1 =
        .error "X has a different number of features than during fitting"
    ∧ (AnomalyModel.predict onesDetector c4TrainedModel c4PredictFrame).2.feature_columns =
        createFeatureCols c4PredictFrame.cols
    ∧ c4TrainedModel.fittedCols = some (createFeatureCols c4TrainFrame.cols) := by
  refine ⟨rfl, rfl, rfl, rfl⟩

end GenericForecast
